import Mathlib

/-!
Shallow embedding of the `mcp-project` JSON-RPC server (`server.js`) in Lean 4,
together with theorems settling the specification claims about its dispatch
loop, handlers, structural validator and resource boundary guard.

JavaScript runtime values exchanged over the wire are modelled by the
inductive type `JsValue`; JS numbers are modelled as exact rationals extended
with the IEEE special values `NaN`, `Infinity` and `-Infinity` (binary
floating-point rounding is not modelled — the program performs single
arithmetic operations whose branch structure is rounding-independent).
Filesystem access and JSON parsing are plumbing and enter the model as
explicit parameters.
-/

/-- Models a JavaScript number: an exact rational, or one of the IEEE special
values. Signed zero is not distinguished (JS `-0 === 0` is `true`, which
matches the single rational zero here). -/
inductive JsNum where
  | fin (q : ℚ)
  | posInf
  | negInf
  | nan
deriving DecidableEq, Repr

/-- Negation of a JS number (used to express `a - b` as `a + (-b)`). -/
def JsNum.neg : JsNum → JsNum
  | .fin q => .fin (-q)
  | .posInf => .negInf
  | .negInf => .posInf
  | .nan => .nan

/-- Models JS `+` on numbers. -/
def jsAdd : JsNum → JsNum → JsNum
  | .nan, _ => .nan
  | _, .nan => .nan
  | .posInf, .negInf => .nan
  | .negInf, .posInf => .nan
  | .posInf, _ => .posInf
  | _, .posInf => .posInf
  | .negInf, _ => .negInf
  | _, .negInf => .negInf
  | .fin a, .fin b => .fin (a + b)

/-- Models JS `-` on numbers. -/
def jsSub (a b : JsNum) : JsNum := jsAdd a b.neg

/-- Models JS `*` on numbers. -/
def jsMul : JsNum → JsNum → JsNum
  | .nan, _ => .nan
  | _, .nan => .nan
  | .fin a, .fin b => .fin (a * b)
  | .posInf, .posInf => .posInf
  | .posInf, .negInf => .negInf
  | .negInf, .posInf => .negInf
  | .negInf, .negInf => .posInf
  | .posInf, .fin b => if b = 0 then .nan else if 0 < b then .posInf else .negInf
  | .fin a, .posInf => if a = 0 then .nan else if 0 < a then .posInf else .negInf
  | .negInf, .fin b => if b = 0 then .nan else if 0 < b then .negInf else .posInf
  | .fin a, .negInf => if a = 0 then .nan else if 0 < a then .negInf else .posInf

/-- Models JS `/` on numbers, including the IEEE division-by-zero results
(`0/0` is `NaN`, `a/0` is a signed infinity) that the server's zero guard is
there to avoid. Signed zero is not distinguished. -/
def jsDiv : JsNum → JsNum → JsNum
  | .nan, _ => .nan
  | _, .nan => .nan
  | .posInf, .posInf => .nan
  | .posInf, .negInf => .nan
  | .negInf, .posInf => .nan
  | .negInf, .negInf => .nan
  | .posInf, .fin b => if 0 ≤ b then .posInf else .negInf
  | .negInf, .fin b => if 0 ≤ b then .negInf else .posInf
  | .fin _, .posInf => .fin 0
  | .fin _, .negInf => .fin 0
  | .fin a, .fin b =>
    if b = 0 then (if a = 0 then .nan else if 0 < a then .posInf else .negInf)
    else .fin (a / b)

/-- Models JS `String(n)` on numbers. Integral values print exactly as in JS;
the decimal shortest-round-trip rendering of non-integral doubles is
approximated by the rational literal (no claim exercises a non-integral
rendering). -/
def jsNumToString : JsNum → String
  | .fin q => if q.den = 1 then toString q.num else toString q
  | .posInf => "Infinity"
  | .negInf => "-Infinity"
  | .nan => "NaN"

/-- Models a JavaScript runtime value as far as the server manipulates them:
`undefined`, `null`, booleans, numbers, strings, arrays, and plain objects
(ordered field lists, unique keys after `JSON.parse`). -/
inductive JsValue where
  | undef
  | null
  | bool (b : Bool)
  | num (n : JsNum)
  | str (s : String)
  | arr (xs : List JsValue)
  | obj (fields : List (String × JsValue))
deriving Repr

mutual

def JsValue.deq : (a b : JsValue) → Decidable (a = b)
  | .undef, .undef => isTrue rfl
  | .null, .null => isTrue rfl
  | .bool a, .bool b =>
    if h : a = b then isTrue (by rw [h]) else isFalse (fun he => h (by injection he))
  | .num a, .num b =>
    if h : a = b then isTrue (by rw [h]) else isFalse (fun he => h (by injection he))
  | .str a, .str b =>
    if h : a = b then isTrue (by rw [h]) else isFalse (fun he => h (by injection he))
  | .arr xs, .arr ys =>
    match JsValue.deqList xs ys with
    | isTrue h => isTrue (by rw [h])
    | isFalse h => isFalse (fun he => h (by injection he))
  | .obj fs, .obj gs =>
    match JsValue.deqFields fs gs with
    | isTrue h => isTrue (by rw [h])
    | isFalse h => isFalse (fun he => h (by injection he))
  | .undef, .null => isFalse nofun
  | .undef, .bool _ => isFalse nofun
  | .undef, .num _ => isFalse nofun
  | .undef, .str _ => isFalse nofun
  | .undef, .arr _ => isFalse nofun
  | .undef, .obj _ => isFalse nofun
  | .null, .undef => isFalse nofun
  | .null, .bool _ => isFalse nofun
  | .null, .num _ => isFalse nofun
  | .null, .str _ => isFalse nofun
  | .null, .arr _ => isFalse nofun
  | .null, .obj _ => isFalse nofun
  | .bool _, .undef => isFalse nofun
  | .bool _, .null => isFalse nofun
  | .bool _, .num _ => isFalse nofun
  | .bool _, .str _ => isFalse nofun
  | .bool _, .arr _ => isFalse nofun
  | .bool _, .obj _ => isFalse nofun
  | .num _, .undef => isFalse nofun
  | .num _, .null => isFalse nofun
  | .num _, .bool _ => isFalse nofun
  | .num _, .str _ => isFalse nofun
  | .num _, .arr _ => isFalse nofun
  | .num _, .obj _ => isFalse nofun
  | .str _, .undef => isFalse nofun
  | .str _, .null => isFalse nofun
  | .str _, .bool _ => isFalse nofun
  | .str _, .num _ => isFalse nofun
  | .str _, .arr _ => isFalse nofun
  | .str _, .obj _ => isFalse nofun
  | .arr _, .undef => isFalse nofun
  | .arr _, .null => isFalse nofun
  | .arr _, .bool _ => isFalse nofun
  | .arr _, .num _ => isFalse nofun
  | .arr _, .str _ => isFalse nofun
  | .arr _, .obj _ => isFalse nofun
  | .obj _, .undef => isFalse nofun
  | .obj _, .null => isFalse nofun
  | .obj _, .bool _ => isFalse nofun
  | .obj _, .num _ => isFalse nofun
  | .obj _, .str _ => isFalse nofun
  | .obj _, .arr _ => isFalse nofun

def JsValue.deqList : (a b : List JsValue) → Decidable (a = b)
  | [], [] => isTrue rfl
  | [], _ :: _ => isFalse nofun
  | _ :: _, [] => isFalse nofun
  | x :: xs, y :: ys =>
    match JsValue.deq x y with
    | isTrue h1 =>
      match JsValue.deqList xs ys with
      | isTrue h2 => isTrue (by rw [h1, h2])
      | isFalse h2 => isFalse (fun he => by cases he; exact h2 rfl)
    | isFalse h1 => isFalse (fun he => by cases he; exact h1 rfl)

def JsValue.deqFields : (a b : List (String × JsValue)) → Decidable (a = b)
  | [], [] => isTrue rfl
  | [], _ :: _ => isFalse nofun
  | _ :: _, [] => isFalse nofun
  | (k, v) :: fs, (l, w) :: gs =>
    if hk : k = l then
      match JsValue.deq v w with
      | isTrue h1 =>
        match JsValue.deqFields fs gs with
        | isTrue h2 => isTrue (by rw [hk, h1, h2])
        | isFalse h2 => isFalse (fun he => by cases he; exact h2 rfl)
      | isFalse h1 => isFalse (fun he => by cases he; exact h1 rfl)
    else isFalse (fun he => by cases he; exact hk rfl)

end

instance : DecidableEq JsValue := JsValue.deq

/-- True exactly on `undefined` (used to model the `id !== undefined` guards
and the field-dropping of `JSON.stringify`). -/
def JsValue.isUndef : JsValue → Bool
  | .undef => true
  | _ => false

theorem JsValue.isUndef_eq_false {v : JsValue} (h : v ≠ .undef) : v.isUndef = false := by
  cases v <;> simp [JsValue.isUndef] at h ⊢

/-- Models JavaScript truthiness: `undefined`, `null`, `false`, `0`, `NaN`
and the empty string are falsy; every other value (including every object
and array) is truthy. -/
def jsTruthy : JsValue → Bool
  | .undef => false
  | .null => false
  | .bool b => b
  | .num (.fin q) => if q = 0 then false else true
  | .num .nan => false
  | .num _ => true
  | .str s => !s.isEmpty
  | .arr _ => true
  | .obj _ => true

/-- Models JS property access `v[k]` at the call sites the server uses it:
on a plain object it returns the field's value (or `undefined` when absent);
on any other receiver it returns `undefined`. (Property access on `null` or
`undefined` throws in JS; every access in `server.js` on a possibly-nullish
base is guarded by `?.` or `?? \x7b\x7d`, except the top-level destructuring
of the parsed message, which is modelled separately as a crash.) -/
def jsGetField (v : JsValue) (k : String) : JsValue :=
  match v with
  | .obj fs => ((fs.find? (fun p => p.1 == k)).map Prod.snd).getD JsValue.undef
  | _ => JsValue.undef

/-- Models the JS nullish coalescing `a ?? b`. -/
def jsCoalesce (a b : JsValue) : JsValue :=
  match a with
  | .undef => b
  | .null => b
  | v => v

/-- The own-property membership test on a plain object's field list — the
own-key half of the JS `in` operator, which additionally reports inherited
prototype member names (see `jsInObj` for the plain-object chain, used by
the validator). `handlePromptsGet` models its `k in vars` test with this
own-key half alone: the only key it ever tests is `"name"`, the registered
prompt's single required argument, which is a member of neither
`Object.prototype` nor `Array.prototype`, so the inherited names the `in`
operator would add can never include it. -/
def hasOwnKey (fs : List (String × JsValue)) (k : String) : Bool :=
  fs.any (fun p => p.1 == k)

mutual

/-- Models JS `String(v)`. Arrays stringify by joining their elements with
commas, rendering `null` and `undefined` elements as empty (the behavior of
`Array.prototype.join`); plain objects stringify as `[object Object]`. -/
def jsToString : JsValue → String
  | .undef => "undefined"
  | .null => "null"
  | .bool b => if b then "true" else "false"
  | .num n => jsNumToString n
  | .str s => s
  | .arr xs => String.intercalate "," (jsToStringElems xs)
  | .obj _ => "[object Object]"

def jsToStringElems : List JsValue → List String
  | [] => []
  | v :: vs =>
    (match v with
     | .undef => ""
     | .null => ""
     | w => jsToString w) :: jsToStringElems vs

end

/-- Hexadecimal digit character (lower case), for JSON control-character
escapes. -/
def hexDigit (n : Nat) : Char :=
  if n < 10 then Char.ofNat (48 + n) else Char.ofNat (87 + n)

/-- Models the string-escaping performed by `JSON.stringify` on string
contents. -/
def escapeStringChars : List Char → List Char
  | [] => []
  | c :: cs =>
    (if c = '"' then ['\\', '"']
     else if c = '\\' then ['\\', '\\']
     else if c = '\n' then ['\\', 'n']
     else if c = '\r' then ['\\', 'r']
     else if c = '\t' then ['\\', 't']
     else if c = '\x08' then ['\\', 'b']
     else if c = '\x0c' then ['\\', 'f']
     else if c.toNat < 32 then
       ['\\', 'u', '0', '0', hexDigit (c.toNat / 16), hexDigit (c.toNat % 16)]
     else [c]) ++ escapeStringChars cs

/-- Double-quoted, escaped JSON string literal. -/
def jsonQuote (s : String) : String :=
  "\"" ++ String.mk (escapeStringChars s.toList) ++ "\""

/-- JSON rendering of a number: `NaN` and the infinities serialize as `null`
(as `JSON.stringify` does); integral values print exactly. -/
def jsonNumRepr : JsNum → String
  | .fin q => if q.den = 1 then toString q.num else toString q
  | _ => "null"

mutual

/-- Models `JSON.stringify(v)` for the values the server emits: object
fields whose value is `undefined` are omitted; `NaN` and infinities become
`null`. (`JSON.stringify` applied to a bare `undefined` returns `undefined`
rather than a string; the server only ever stringifies objects, so that case
is mapped to `"null"` here and is unreachable from `send`.) -/
def jsonStringify : JsValue → String
  | .undef => "null"
  | .null => "null"
  | .bool b => if b then "true" else "false"
  | .num n => jsonNumRepr n
  | .str s => jsonQuote s
  | .arr xs => "[" ++ String.intercalate "," (jsonStringifyList xs) ++ "]"
  | .obj fs => "\x7b" ++ String.intercalate "," (jsonStringifyFields fs) ++ "\x7d"

def jsonStringifyList : List JsValue → List String
  | [] => []
  | v :: vs => jsonStringify v :: jsonStringifyList vs

def jsonStringifyFields : List (String × JsValue) → List String
  | [] => []
  | (k, v) :: fs =>
    match v with
    | .undef => jsonStringifyFields fs
    | w => (jsonQuote k ++ ":" ++ jsonStringify w) :: jsonStringifyFields fs

end

/-- True when the JSON serialization of `v` (an object) contains a member
named `k`: the key must be present and its value must not be `undefined`
(`JSON.stringify` drops `undefined`-valued members). -/
def jsonMemberPresent (v : JsValue) (k : String) : Bool :=
  match v with
  | .obj fs => fs.any (fun p => p.1 == k && !p.2.isUndef)
  | _ => false

/-- Models `send`: the message is serialized with `JSON.stringify` and the
source then appends the JS string literal written `"\\n"` in `server.js` —
that literal denotes the two-character sequence backslash, `n`, not a
newline. -/
def sendLine (m : JsValue) : String := jsonStringify m ++ "\\n"

/-- Models `reply(id, result)`. -/
def replyMsg (id result : JsValue) : JsValue :=
  .obj [("jsonrpc", .str "2.0"), ("id", id), ("result", result)]

/-- Models `error(id, code, message, data)`; a call site that omits `data`
passes `undefined`, which `JSON.stringify` later drops from the `error`
object. -/
def errorMsg (id : JsValue) (code : ℚ) (message : String) (data : JsValue) : JsValue :=
  .obj [("jsonrpc", .str "2.0"), ("id", id),
        ("error", .obj [("code", .num (.fin code)),
                        ("message", .str message),
                        ("data", data)])]

/-- Models `notify(method, params)` — no `id` key at all. -/
def notifyMsg (method : String) (params : JsValue) : JsValue :=
  .obj [("jsonrpc", .str "2.0"), ("method", .str method), ("params", params)]

/-- The message sent by the parse guard of the line loop: it is built with a
plain `send` and carries no `id` key at all. -/
def parseErrorMsg : JsValue :=
  .obj [("jsonrpc", .str "2.0"),
        ("error", .obj [("code", .num (.fin (-32700))), ("message", .str "Parse error")])]

/-- The `inputSchema` of the registered `calculator_arithmetic` tool, as the
JSON value exposed by `tools/list`. -/
def calculatorSchemaJson : JsValue :=
  .obj [("type", .str "object"),
        ("required", .arr [.str "op", .str "a", .str "b"]),
        ("properties", .obj
          [("op", .obj [("type", .str "string"),
                        ("enum", .arr [.str "add", .str "sub", .str "mul", .str "div"])]),
           ("a", .obj [("type", .str "number")]),
           ("b", .obj [("type", .str "number")])])]

/-- The registered tool table (`tools` in `server.js`) as a JSON value. -/
def toolsTableJson : JsValue :=
  .arr [.obj [("name", .str "calculator_arithmetic"),
              ("title", .str "Calculator (basic arithmetic)"),
              ("description", .str "Soma, subtração, multiplicação e divisão de dois números."),
              ("inputSchema", calculatorSchemaJson)]]

/-- The template of the registered `hello-template` prompt (braces written
with hexadecimal escapes). -/
def helloTemplate : String :=
  "Olá, \x7b\x7bname\x7d\x7d! Bem-vindo ao Servidor MCP de demonstração."

/-- The `inputSchema` of the registered prompt, as a JSON value. -/
def helloSchemaJson : JsValue :=
  .obj [("type", .str "object"),
        ("required", .arr [.str "name"]),
        ("properties", .obj [("name", .obj [("type", .str "string")])])]

/-- A registered prompt as the dispatcher consumes it: its unique name, the
`required` list of its input schema, and its template text. -/
structure PromptDescriptor where
  name : String
  requiredArgs : List String
  template : String

/-- The registered prompt table (`prompts` in `server.js`). -/
def promptsTable : List PromptDescriptor :=
  [⟨"hello-template", ["name"], helloTemplate⟩]

/-- The `prompts/list` reply payload: name/title/description/inputSchema for
each registered prompt, without the template text. -/
def promptsListJson : JsValue :=
  .arr [.obj [("name", .str "hello-template"),
              ("title", .str "Hello Prompt"),
              ("description", .str "Saudação com variável \x7b\x7bname\x7d\x7d"),
              ("inputSchema", helloSchemaJson)]]

/-- The `initialize` reply payload: fixed protocol version, server identity
and capability flags. -/
def initializeResult : JsValue :=
  .obj [("protocolVersion", .str "2025-06-18"),
        ("serverInfo", .obj [("name", .str "mcp-server-demo"), ("version", .str "0.1.0")]),
        ("capabilities", .obj
          [("tools", .obj [("listChanged", .bool true)]),
           ("resources", .obj [("listChanged", .bool true)]),
           ("prompts", .obj [("listChanged", .bool true)])])]

/-- Environment of plumbing collaborators: the configured root directories
(`ROOTS`), the filesystem read (`fs.readFileSync`, an error message on
throw), and the current `scanResources()` result. -/
structure ServerEnv where
  roots : List String
  readFile : String → Except String String
  resources : List JsValue

/-- Models JS `s.startsWith(pre)`: the character sequence of `pre` is a
prefix of the character sequence of `s`. -/
def strStartsWith (s pre : String) : Bool :=
  pre.toList.isPrefixOf s.toList

/-- Models `uri.replace("file://", "")` under the guard that `uri` starts
with `file://`: the first occurrence of the pattern is then exactly the
7-character prefix, so the replacement removes those characters. -/
def dropFilePrefix (s : String) : String := String.mk (s.toList.drop 7)

/-- Models the containment check of `handleResourcesRead`:
`ROOTS.some(root => filePath.startsWith(root + path.sep))`, with the POSIX
separator `/`. The spec names this check `isContained(path, roots)`. -/
def isContained (filePath : String) (roots : List String) : Bool :=
  roots.any (fun root => strStartsWith filePath (root ++ "/"))

/-- A word character of the JS regex class `\w`: ASCII letters, digits and
underscore. -/
def wordChar (c : Char) : Bool := c.isAlphanum || c = '_'

/-- Attempts to match the placeholder regex (a doubled open brace, one or
more word characters, a doubled close brace) at the head of a character
list; on success returns the captured key and the characters after the
match. The maximal word run must be followed directly by the doubled close
brace — a shorter run would end at a word character, so the backtracking
regex engine accepts exactly when this function does. -/
def matchPlaceholder : List Char → Option (String × List Char)
  | '\x7b' :: '\x7b' :: rest =>
    let w := rest.takeWhile wordChar
    match rest.dropWhile wordChar with
    | '\x7d' :: '\x7d' :: rest2 => if w.isEmpty then none else some (String.mk w, rest2)
    | _ => none
  | _ => none

theorem length_dropWhile_le (p : α → Bool) (l : List α) :
    (l.dropWhile p).length ≤ l.length := by
  induction l with
  | nil => simp
  | cons x xs ih =>
    by_cases hx : p x = true <;> simp [List.dropWhile_cons, hx] <;> omega

theorem matchPlaceholder_some_length {cs : List Char} {k : String} {rest : List Char}
    (h : matchPlaceholder cs = some (k, rest)) : rest.length + 4 ≤ cs.length := by
  unfold matchPlaceholder at h
  split at h
  next rest0 =>
    simp only at h
    split at h
    next rest2 heq =>
      split at h
      · simp at h
      · have hle := length_dropWhile_le wordChar rest0
        rw [heq] at hle
        simp only [List.length_cons] at hle
        cases h
        simp only [List.length_cons]
        omega
    next => simp at h
  next => simp at h

/-- Models one global pass of
`template.replace(re, (_, k) => String(vars[k] ?? ""))` where `re` is the
placeholder regex. At each position: if the regex matches, the replacement
string is spliced in and scanning resumes after the match; otherwise one
character is copied and scanning advances by one. -/
def renderChars (vars : JsValue) (cs : List Char) : List Char :=
  match cs with
  | [] => []
  | c1 :: cs1 =>
    match h : matchPlaceholder (c1 :: cs1) with
    | some (key, rest) =>
      (jsToString (jsCoalesce (jsGetField vars key) (.str ""))).toList
        ++ renderChars vars rest
    | none => c1 :: renderChars vars cs1
termination_by cs.length
decreasing_by
  · have := matchPlaceholder_some_length h
    simp only [List.length_cons] at this ⊢
    omega
  · simp

/-- Models `prompt.template.replace(/.../g, (_, k) => String(vars[k] ?? ""))`
on a whole template string. -/
def renderTemplate (template : String) (vars : JsValue) : String :=
  String.mk (renderChars vars template.toList)

/-- Models `handleInitialize`: one reply with the fixed result, and the three
`list_changed` notifications written by the callback that `setTimeout`
schedules (the 5000 ms delay is abstracted away; the spec leaves the
interleaving of these notifications with later replies unspecified). The
`clientInfo` of `params` is read and ignored. -/
def handleInitialize (id _params : JsValue) : List JsValue :=
  [replyMsg id initializeResult,
   notifyMsg "notifications/tools/list_changed" (.obj []),
   notifyMsg "notifications/resources/list_changed" (.obj []),
   notifyMsg "notifications/prompts/list_changed" (.obj [])]

/-- The `tools/call` success reply payload for a computed value:
`\x7b content: [\x7b type: "text", text: String(value) \x7d], meta: \x7b value \x7d \x7d`. -/
def calcReply (id : JsValue) (value : JsNum) : JsValue :=
  replyMsg id (.obj
    [("content", .arr [.obj [("type", .str "text"), ("text", .str (jsNumToString value))]]),
     ("meta", .obj [("value", .num value)])])

/-- Models `handleToolsCall`. Destructuring `params ?? \x7b\x7d` and
`args ?? \x7b\x7d` never throws, so this handler is total: it emits exactly
one message on every path. -/
def handleToolsCall (id params : JsValue) : List JsValue :=
  let p := jsCoalesce params (.obj [])
  let name := jsGetField p "name"
  if name = .str "calculator_arithmetic" then
    let args := jsCoalesce (jsGetField p "arguments") (.obj [])
    let op := jsGetField args "op"
    match jsGetField args "a", jsGetField args "b" with
    | .num na, .num nb =>
      if op = .str "add" then [calcReply id (jsAdd na nb)]
      else if op = .str "sub" then [calcReply id (jsSub na nb)]
      else if op = .str "mul" then [calcReply id (jsMul na nb)]
      else if op = .str "div" then
        if nb = .fin 0 then [errorMsg id (-32000) "Divisão por zero" .undef]
        else [calcReply id (jsDiv na nb)]
      else
        [errorMsg id (-32602) "Operação inválida"
          (.obj [("allowed", .arr [.str "add", .str "sub", .str "mul", .str "div"])])]
    | _, _ =>
      [errorMsg id (-32602) "Parâmetros inválidos"
        (.obj [("expected", .str "numbers a,b")])]
  else [errorMsg id (-32601) ("Tool não encontrada: " ++ jsToString name) .undef]

/-- Models `handleResourcesRead`. `params?.uri` is `jsGetField params "uri"`;
`uri.replace("file://", "")` on a string that starts with `file://` removes
exactly that 7-character prefix. The only way this handler can throw is
`uri.startsWith` applied to a truthy non-string `uri` (a `TypeError`, the
`.error` branch); filesystem failures are caught inside the handler and
reported as code `-32002`. -/
def handleResourcesRead (env : ServerEnv) (id params : JsValue) :
    Except String (List JsValue) :=
  let uri := jsGetField params "uri"
  if !jsTruthy uri then
    .ok [errorMsg id (-32602) "URI inválida. Use file://" .undef]
  else
    match uri with
    | .str s =>
      if !(strStartsWith s "file://") then
        .ok [errorMsg id (-32602) "URI inválida. Use file://" .undef]
      else
        let filePath := dropFilePrefix s
        if !isContained filePath env.roots then
          .ok [errorMsg id (-32001) "Fora das raízes permitidas (roots)." .undef]
        else
          match env.readFile filePath with
          | .ok data =>
            .ok [replyMsg id (.obj [("contents", .arr
              [.obj [("mimeType", .str "text/plain"), ("uri", .str s), ("text", .str data)]])])]
          | .error e =>
            .ok [errorMsg id (-32002) "Falha ao ler recurso" (.obj [("message", .str e)])]
    | _ => .error "uri.startsWith is not a function"

/-- Models the `in` test `k in xs` for a JS array receiver: valid indices
and `length` are own keys. -/
def arrHasKey (xs : List JsValue) (k : String) : Bool :=
  (List.range xs.length).any (fun i => toString i == k) || k == "length"

/-- Models `handlePromptsGet`. The required-argument check uses the `in`
operator, which throws a `TypeError` when `vars` is neither an object nor an
array and at least one required key is tested (the `.error` branch). -/
def handlePromptsGet (id params : JsValue) : Except String (List JsValue) :=
  let name := jsGetField params "name"
  match promptsTable.find? (fun p => decide (name = .str p.name)) with
  | none => .ok [errorMsg id (-32601) ("Prompt não encontrado: " ++ jsToString name) .undef]
  | some p =>
    let vars := jsCoalesce (jsGetField params "arguments") (.obj [])
    let renderedReply : List JsValue :=
      [replyMsg id (.obj [("prompt", .obj
        [("name", .str p.name),
         ("messages", .arr [.obj [("role", .str "system"),
                                  ("content", .str (renderTemplate p.template vars))]])])])]
    let missingErr : List JsValue :=
      [errorMsg id (-32602) "Argumentos ausentes para o prompt"
        (.obj [("required", .arr (p.requiredArgs.map JsValue.str))])]
    match vars with
    | .obj fs =>
      if p.requiredArgs.any (fun k => !(hasOwnKey fs k)) then .ok missingErr
      else .ok renderedReply
    | .arr xs =>
      if p.requiredArgs.any (fun k => !(arrHasKey xs k)) then .ok missingErr
      else .ok renderedReply
    | _ =>
      if p.requiredArgs.isEmpty then .ok renderedReply
      else .error "Cannot use in operator to search for a key in a primitive"

/-- Models the `switch (method)` of the line loop. The default case emits a
`Method not found` error only when the request carries an `id`. Handlers
that can throw return through the `Except` error channel, which the
dispatcher's `catch` turns into a `-32603` error (or silence for a
notification). -/
def runMethod (env : ServerEnv) (id method params : JsValue) :
    Except String (List JsValue) :=
  if method = .str "initialize" then .ok (handleInitialize id params)
  else if method = .str "tools/list" then .ok [replyMsg id (.obj [("tools", toolsTableJson)])]
  else if method = .str "tools/call" then .ok (handleToolsCall id params)
  else if method = .str "resources/list" then
    .ok [replyMsg id (.obj [("resources", .arr env.resources)])]
  else if method = .str "resources/read" then handleResourcesRead env id params
  else if method = .str "prompts/list" then .ok [replyMsg id (.obj [("prompts", promptsListJson)])]
  else if method = .str "prompts/get" then handlePromptsGet id params
  else
    .ok (if id ≠ .undef then
      [errorMsg id (-32601) ("Method not found: " ++ jsToString method) .undef]
    else [])

/-- Dispatch of one successfully parsed message: route by method, and map an
uncaught handler exception to a `-32603` internal error when the request has
an `id` (the `catch` clause of the line handler). -/
def dispatchMsg (env : ServerEnv) (m : JsValue) : List JsValue :=
  let id := jsGetField m "id"
  match runMethod env id (jsGetField m "method") (jsGetField m "params") with
  | .ok msgs => msgs
  | .error e =>
    if id ≠ .undef then [errorMsg id (-32603) "Internal error" (.obj [("message", .str e)])]
    else []

/-- Models `line.trim()`: leading and trailing whitespace characters are
removed (JS trims the Unicode whitespace class; the ASCII whitespace
handled by `Char.isWhitespace` covers every character the claims
exercise). -/
def trimChars (cs : List Char) : List Char :=
  ((cs.dropWhile Char.isWhitespace).reverse.dropWhile Char.isWhitespace).reverse

/-- Models the `rl.on('line')` callback on one input line. `parse` is the
JSON parser (plumbing, passed as a parameter); `none` models a thrown
`SyntaxError`. A whitespace-only line (`!line.trim()`) is skipped before
parsing. A parsed `null` (or a hypothetical `undefined`) makes the
destructuring `const \x7b id, method, params \x7d = msg` throw outside the
`try`, which kills the input loop — the `.error` result. -/
def processLine (parse : String → Option JsValue) (env : ServerEnv) (line : String) :
    Except Unit (List JsValue) :=
  if trimChars line.toList = [] then .ok []
  else
    match parse line with
    | none => .ok [parseErrorMsg]
    | some .null => .error ()
    | some .undef => .error ()
    | some m => .ok (dispatchMsg env m)

/-- The whole input loop: lines are handled strictly in sequence; an
exception that escapes a line handler terminates the process, so later
lines produce no output. -/
def runLines (parse : String → Option JsValue) (env : ServerEnv) :
    List String → List JsValue
  | [] => []
  | l :: rest =>
    match processLine parse env l with
    | .ok out => out ++ runLines parse env rest
    | .error _ => []

/-- A structured validation error, as the structural validator pushes them:
`\x7b instancePath, keyword, params, message \x7d`. -/
structure SchemaErrorRecord where
  instancePath : String
  keyword : String
  params : JsValue
  message : String
deriving DecidableEq, Repr

/-- The error record pushed on a failed `type` check. -/
def typeErrorRecord (path ty : String) : SchemaErrorRecord :=
  ⟨path, "type", .obj [("type", .str ty)], "must be " ++ ty⟩

/-- The error record pushed for a missing required property. -/
def requiredErrorRecord (path key : String) : SchemaErrorRecord :=
  ⟨path, "required", .obj [("missingProperty", .str key)],
   "must have required property \x27" ++ key ++ "\x27"⟩

/-- The error record pushed on a failed `enum` check. -/
def enumErrorRecord (path : String) (allowed : List JsValue) : SchemaErrorRecord :=
  ⟨path, "enum", .obj [("allowedValues", .arr allowed)],
   "must be equal to one of the allowed values"⟩

/-- One global single-character replacement pass (`str.replace(/c/g, r)`). -/
def replaceCharWith (c : Char) (r : List Char) : List Char → List Char
  | [] => []
  | x :: xs => (if x = c then r else [x]) ++ replaceCharWith c r xs

/-- Models `escapeJsonPointer`: first every tilde becomes `~0`, then every
slash of the result becomes `~1` (the `~0` introduced by the first pass
contains no slash, so only original slashes are rewritten). -/
def escapeJsonPointer (s : String) : String :=
  String.mk (replaceCharWith '/' ['~', '1'] (replaceCharWith '~' ['~', '0'] s.toList))

/-- A schema as the structural validator reads it. `type?` is `schema.type`
when present (only string-valued types occur; an absent type matches no
`===` comparison, like `none`). `required?` is `some` exactly when
`schema.required` is an array — otherwise the code substitutes `[]`.
`enum?` is `some` exactly when `schema.enum` is truthy (an array at every
call site). `properties` are the entries of `schema.properties ?? \x7b\x7d`
in object order. -/
inductive Schema where
  | mk (type? : Option String) (required? : Option (List String))
       (properties : List (String × Schema)) (enum? : Option (List JsValue))

/-- The `type` checks of the validator for non-`object` types: `number`
requires a numeric non-`NaN` value, `string` requires a string, any other
(or absent) type matches no `===` comparison and checks nothing. -/
def typeCheckPart (value : JsValue) (type? : Option String) (path : String) :
    Bool × List SchemaErrorRecord :=
  if type? = some "number" then
    match value with
    | .num n => if n = .nan then (false, [typeErrorRecord path "number"]) else (true, [])
    | _ => (false, [typeErrorRecord path "number"])
  else if type? = some "string" then
    match value with
    | .str _ => (true, [])
    | _ => (false, [typeErrorRecord path "string"])
  else (true, [])

/-- The own property names of `Object.prototype` — exactly the inherited
names the `in` operator reports on a plain object, whose prototype chain
is `Object.prototype`, then `null`. All of them are built-in functions
except `__proto__`, an accessor whose value read on a plain object is the
`Object.prototype` object itself. -/
def objectPrototypeKeys : List String :=
  ["constructor", "hasOwnProperty", "isPrototypeOf", "propertyIsEnumerable",
   "toLocaleString", "toString", "valueOf", "__defineGetter__",
   "__defineSetter__", "__lookupGetter__", "__lookupSetter__", "__proto__"]

/-- Models the full `in` operator test `k in value` for a plain object:
`k` is an own key, or an inherited `Object.prototype` member name. -/
def jsInObj (fs : List (String × JsValue)) (k : String) : Bool :=
  hasOwnKey fs k || objectPrototypeKeys.contains k

mutual

/-- Models `validateAgainstSchema(value, schema, path, errors)`, returning
the validity flag together with the error records this call appends, in
push order. The `type: "object"` branch returns early: a non-object value
yields exactly one `type` error, and an object value yields the `required`
errors (all collected, in order) followed by the recursive property errors —
in both cases the `enum` check lower in the function body is never reached.
The required test is the source's `!(key in value)`: a required key that is
an inherited `Object.prototype` member name is never reported missing
(`jsInObj`). For other types the `type` check result and the `enum` check
result are combined: validity is their conjunction and the error lists
concatenate. -/
def validateAgainstSchema (value : JsValue) (schema : Schema) (path : String) :
    Bool × List SchemaErrorRecord :=
  match schema with
  | .mk type? required? properties enum? =>
    if type? = some "object" then
      match value with
      | .obj fields =>
        let required := required?.getD []
        let missing := required.filter (fun k => !(jsInObj fields k))
        let sub := validateProps fields properties path
        (missing.isEmpty && sub.1,
         missing.map (fun k => requiredErrorRecord path k) ++ sub.2)
      | _ => (false, [typeErrorRecord path "object"])
    else
      let tc : Bool × List SchemaErrorRecord := typeCheckPart value type? path
      match enum? with
      | some allowed =>
        if allowed.any (fun x => decide (x = value)) then (tc.1, tc.2)
        else (false, tc.2 ++ [enumErrorRecord path allowed])
      | none => (tc.1, tc.2)

/-- The `for (const [key, childSchema] of Object.entries(properties))` loop.
The presence guard is the source's `key in value` and the fetched value is
`value[key]`: an own key fetches the own field value; a key that is only an
inherited `Object.prototype` member name is still present for `in`, and the
fetch yields the inherited member, whose validation is `validateInherited`;
any other key is skipped. The instance path extends by `/` plus the escaped
key (the source writes `path ? path + "/" + esc : "/" + esc`, and both
branches equal `path ++ "/" ++ esc` because the first is taken exactly when
`path` is non-empty). Validity is the conjunction of the sub-results and
the error lists concatenate in loop order. -/
def validateProps (fields : List (String × JsValue)) (props : List (String × Schema))
    (path : String) : Bool × List SchemaErrorRecord :=
  match props with
  | [] => (true, [])
  | (key, childSchema) :: restProps =>
    let head : Bool × List SchemaErrorRecord :=
      if hasOwnKey fields key then
        validateAgainstSchema (jsGetField (.obj fields) key) childSchema
          (path ++ "/" ++ escapeJsonPointer key)
      else if objectPrototypeKeys.contains key then
        validateInherited key childSchema (path ++ "/" ++ escapeJsonPointer key)
      else (true, [])
    let rest := validateProps fields restProps path
    (head.1 && rest.1, head.2 ++ rest.2)

/-- Models what `validateAgainstSchema` does when the value under scrutiny
is the inherited `Object.prototype` member named `name`, fetched by
`value[key]` for a declared property that is present only through the
prototype chain. Such a value is not a `JsValue` (it is a built-in
function — or, for `__proto__`, the `Object.prototype` object itself), so
its validation outcome is transcribed from the source's checks on it: a
built-in function is `typeof "function"`, so the `object`, `number` and
`string` tests all fail; `Object.prototype` is a non-null, non-array
object, so `type: "object"` takes the object branch on it, where its own
keys are exactly `objectPrototypeKeys` (its prototype is `null`); and
neither value can be `===`-equal to any member of a schema `enum` array,
which has no way to reference a built-in, so a present `enum` always
records an error. -/
def validateInherited (name : String) (schema : Schema) (path : String) :
    Bool × List SchemaErrorRecord :=
  match schema with
  | .mk type? required? properties enum? =>
    if type? = some "object" then
      if name = "__proto__" then
        let required := required?.getD []
        let missing := required.filter (fun k => !(objectPrototypeKeys.contains k))
        let sub := validateProtoProps properties path
        (missing.isEmpty && sub.1,
         missing.map (fun k => requiredErrorRecord path k) ++ sub.2)
      else (false, [typeErrorRecord path "object"])
    else
      let tc : Bool × List SchemaErrorRecord :=
        if type? = some "number" then (false, [typeErrorRecord path "number"])
        else if type? = some "string" then (false, [typeErrorRecord path "string"])
        else (true, [])
      match enum? with
      | some allowed => (false, tc.2 ++ [enumErrorRecord path allowed])
      | none => tc

/-- The properties loop of the object branch when the object under
scrutiny is `Object.prototype` itself (reached through a declared
`__proto__` property): `key in Object.prototype` holds exactly for
`objectPrototypeKeys` (they are its own keys and its prototype is `null`);
the fetch `Object.prototype["__proto__"]` yields `null`, and every other
member is the built-in of that name. -/
def validateProtoProps (props : List (String × Schema)) (path : String) :
    Bool × List SchemaErrorRecord :=
  match props with
  | [] => (true, [])
  | (key, childSchema) :: restProps =>
    let head : Bool × List SchemaErrorRecord :=
      if key = "__proto__" then
        validateAgainstSchema .null childSchema (path ++ "/" ++ escapeJsonPointer key)
      else if objectPrototypeKeys.contains key then
        validateInherited key childSchema (path ++ "/" ++ escapeJsonPointer key)
      else (true, [])
    let rest := validateProtoProps restProps path
    (head.1 && rest.1, head.2 ++ rest.2)

end

/-- Models `createSimpleValidator(schema)` applied to a value: the
structural validator runs from the root path, and the side-channel error
field is `null` (`none`) on success, the collected list on failure. -/
def createSimpleValidator (schema : Schema) (data : JsValue) :
    Bool × Option (List SchemaErrorRecord) :=
  let r := validateAgainstSchema data schema ""
  (r.1, if r.2.isEmpty then none else some r.2)

/-- The registered calculator tool schema in validator form. -/
def calculatorSchema : Schema :=
  .mk (some "object") (some ["op", "a", "b"])
    [("op", .mk (some "string") none []
        (some [.str "add", .str "sub", .str "mul", .str "div"])),
     ("a", .mk (some "number") none [] none),
     ("b", .mk (some "number") none [] none)]
    none

/-- A concrete environment for instantiating theorems: one root, no
resources, a filesystem on which every read fails. -/
def demoEnv : ServerEnv :=
  ⟨["/work/demo-root"], fun _ => .error "ENOENT: no such file or directory", []⟩

theorem strStartsWith_iff (s pre : String) :
    strStartsWith s pre = true ↔ ∃ t : String, s = pre ++ t := by
  unfold strStartsWith
  rw [List.isPrefixOf_iff_prefix]
  constructor
  · rintro ⟨l, hl⟩
    refine ⟨String.mk l, String.ext ?_⟩
    rw [String.data_append]
    exact hl.symm
  · rintro ⟨t, rfl⟩
    exact ⟨t.data, (String.data_append _ _).symm⟩

theorem strStartsWith_file_ne_empty {s : String}
    (h : strStartsWith s "file://" = true) : s.isEmpty = false := by
  rcases (strStartsWith_iff s "file://").mp h with ⟨t, rfl⟩
  cases he : ("file://" ++ t).isEmpty
  · rfl
  · exfalso
    have he2 := (String.isEmpty_iff _).mp he
    have := congrArg String.data he2
    rw [String.data_append] at this
    simp at this

/-- C5: the containment check of `resources/read` accepts a path exactly
when it begins with some configured root followed immediately by the path
separator; `/a/b/c` is contained in root `/a/b` while the sibling `/a/bx`
is not; and a syntactically valid `file://` URI whose path fails the check
is answered with the dedicated boundary-violation error `-32001` (not
`-32602`, not `-32002`). -/
theorem c5_isContained_spec :
    (∀ (p : String) (roots : List String),
      isContained p roots = true ↔
        ∃ root ∈ roots, ∃ t : String, p = root ++ "/" ++ t)
    ∧ isContained "/a/b/c" ["/a/b"] = true
    ∧ isContained "/a/bx" ["/a/b"] = false
    ∧ (∀ (env : ServerEnv) (id : JsValue) (s : String),
        strStartsWith s "file://" = true →
        isContained (dropFilePrefix s) env.roots = false →
        handleResourcesRead env id (.obj [("uri", .str s)]) =
          .ok [errorMsg id (-32001) "Fora das raízes permitidas (roots)." .undef]) := by
  refine ⟨?_, by decide, by decide, ?_⟩
  · intro p roots
    unfold isContained
    rw [List.any_eq_true]
    constructor
    · rintro ⟨root, hmem, hsw⟩
      rcases (strStartsWith_iff p (root ++ "/")).mp hsw with ⟨t, ht⟩
      exact ⟨root, hmem, t, by rw [ht, String.append_assoc]⟩
    · rintro ⟨root, hmem, t, ht⟩
      refine ⟨root, hmem, (strStartsWith_iff p (root ++ "/")).mpr ⟨t, ?_⟩⟩
      rw [ht, String.append_assoc]
  · intro env id s hsw hnc
    have hne := strStartsWith_file_ne_empty hsw
    simp only [handleResourcesRead, jsGetField, List.find?, jsTruthy]
    simp [hne, hsw, hnc]

theorem c5_isContained_spec_witness :
    (strStartsWith "file:///tmp/esc.txt" "file://" = true
      ∧ isContained (dropFilePrefix "file:///tmp/esc.txt") demoEnv.roots = false)
    ∧ handleResourcesRead demoEnv (.num (.fin 5)) (.obj [("uri", .str "file:///tmp/esc.txt")]) =
        .ok [errorMsg (.num (.fin 5)) (-32001) "Fora das raízes permitidas (roots)." .undef] :=
  ⟨⟨by decide, by decide⟩,
   c5_isContained_spec.2.2.2 demoEnv (.num (.fin 5)) "file:///tmp/esc.txt"
     (by decide) (by decide)⟩

/-- C2 is a bug in the code, not in the claim: `send` appends the JS string
literal written `"\\n"` in `server.js`, which denotes the two characters
backslash and `n`, not a newline — so outgoing messages are not
newline-terminated and do not occupy one output line each. Evaluated on the
parse-error message: the emitted bytes contain no newline character and end
with backslash, `n`. -/
theorem c2_send_terminator_bug :
    (∀ m : JsValue, sendLine m = jsonStringify m ++ "\\n")
    ∧ ("\\n").toList = ['\\', 'n']
    ∧ sendLine parseErrorMsg =
        "\x7b\"jsonrpc\":\"2.0\",\"error\":\x7b\"code\":-32700,\"message\":\"Parse error\"\x7d\x7d\\n"
    ∧ (sendLine parseErrorMsg).toList.contains '\n' = false := by
  refine ⟨fun m => rfl, by decide, by decide, by decide⟩

set_option maxRecDepth 8192

/-- C10: a non-empty input line that fails JSON parsing makes the loop emit
exactly one message, the `-32700` parse error, whose serialization has no
`id` member at all (the object is built without an `id` key), and the loop
goes on to process the remaining lines; a whitespace-only line produces no
output at all. -/
theorem c10_parse_error_line (parse : String → Option JsValue) (env : ServerEnv)
    (line : String) (rest : List String) :
    (trimChars line.toList = [] → runLines parse env (line :: rest) = runLines parse env rest)
    ∧ (trimChars line.toList ≠ [] → parse line = none →
        runLines parse env (line :: rest) = parseErrorMsg :: runLines parse env rest
        ∧ jsGetField (jsGetField parseErrorMsg "error") "code" = .num (.fin (-32700))
        ∧ jsonMemberPresent parseErrorMsg "id" = false
        ∧ ¬ (("\"id\"").toList <:+: (sendLine parseErrorMsg).toList)) := by
  have htl : line.toList = line.data := rfl
  constructor
  · intro htrim
    rw [htl] at htrim
    simp [runLines, processLine, htrim]
  · intro htrim hparse
    rw [htl] at htrim
    refine ⟨?_, by decide, by decide, by decide⟩
    simp [runLines, processLine, htrim, hparse]

theorem c10_parse_error_line_witness :
    (trimChars ("\x7bnot json").toList ≠ []
      ∧ (fun _ : String => (none : Option JsValue)) "\x7bnot json" = none)
    ∧ runLines (fun _ => none) demoEnv ["\x7bnot json", " "] = [parseErrorMsg] := by
  refine ⟨⟨by decide, rfl⟩, ?_⟩
  have h2 := (c10_parse_error_line (fun _ => none) demoEnv "\x7bnot json" [" "]).2
    (by decide) rfl
  rw [h2.1]
  have h1 := (c10_parse_error_line (fun _ => none) demoEnv " " []).1 (by decide)
  rw [h1]
  rfl

/-- The `tools/call` params for the calculator tool with a given op and
numeric arguments. -/
def calcParams (op : String) (a b : JsNum) : JsValue :=
  .obj [("name", .str "calculator_arithmetic"),
        ("arguments", .obj [("op", .str op), ("a", .num a), ("b", .num b)])]

/-- C4: for the built-in arithmetic tool, `div` with `b = 0` always answers
the domain error `-32000` (distinct from `-32602`), and the output then
contains no `result` member at all — in particular no `NaN` or `Infinity`
result; `div` with nonzero `b` replies with the quotient (exactly `a / b`
for finite operands); `add`, `sub` and `mul` reply with the exact sum,
difference and product. -/
theorem c4_calculator_arithmetic (id : JsValue) (a b : JsNum) (qa qb : ℚ) :
    (b = .fin 0 → handleToolsCall id (calcParams "div" a b) =
        [errorMsg id (-32000) "Divisão por zero" .undef])
    ∧ (b = .fin 0 → ∀ out ∈ handleToolsCall id (calcParams "div" a b),
        jsonMemberPresent out "result" = false)
    ∧ (b ≠ .fin 0 → handleToolsCall id (calcParams "div" a b) = [calcReply id (jsDiv a b)])
    ∧ (qb ≠ 0 → handleToolsCall id (calcParams "div" (.fin qa) (.fin qb)) =
        [calcReply id (.fin (qa / qb))])
    ∧ handleToolsCall id (calcParams "add" (.fin qa) (.fin qb)) = [calcReply id (.fin (qa + qb))]
    ∧ handleToolsCall id (calcParams "sub" (.fin qa) (.fin qb)) = [calcReply id (.fin (qa - qb))]
    ∧ handleToolsCall id (calcParams "mul" (.fin qa) (.fin qb)) =
        [calcReply id (.fin (qa * qb))] := by
  refine ⟨?_, ?_, ?_, ?_, ?_, ?_, ?_⟩
  · intro hb
    subst hb
    simp [handleToolsCall, calcParams, jsGetField, jsCoalesce]
  · intro hb out hout
    subst hb
    simp [handleToolsCall, calcParams, jsGetField, jsCoalesce] at hout
    subst hout
    simp [jsonMemberPresent, errorMsg]
  · intro hb
    simp [handleToolsCall, calcParams, jsGetField, jsCoalesce, hb]
  · intro hb
    have hb2 : (JsNum.fin qb) ≠ .fin 0 := by
      intro h
      exact hb (by injection h)
    simp [handleToolsCall, calcParams, jsGetField, jsCoalesce, hb2, jsDiv, hb]
  · simp [handleToolsCall, calcParams, jsGetField, jsCoalesce, jsAdd]
  · simp [handleToolsCall, calcParams, jsGetField, jsCoalesce, jsSub, jsAdd, JsNum.neg,
      sub_eq_add_neg]
  · simp [handleToolsCall, calcParams, jsGetField, jsCoalesce, jsMul]

theorem c4_calculator_arithmetic_witness :
    ((JsNum.fin 0 : JsNum) = .fin 0
      ∧ handleToolsCall (.num (.fin 1)) (calcParams "div" (.fin 1) (.fin 0)) =
          [errorMsg (.num (.fin 1)) (-32000) "Divisão por zero" .undef])
    ∧ ((JsNum.fin 3 : JsNum) ≠ .fin 0
      ∧ handleToolsCall (.num (.fin 2)) (calcParams "div" (.fin 6) (.fin 3)) =
          [calcReply (.num (.fin 2)) (.fin 2)]) := by
  refine ⟨⟨rfl, (c4_calculator_arithmetic (.num (.fin 1)) (.fin 1) (.fin 0) 0 0).1 rfl⟩,
          ⟨by decide, ?_⟩⟩
  have h := (c4_calculator_arithmetic (.num (.fin 2)) (.fin 6) (.fin 3) 0 0).2.2.1
    (by decide)
  have hdiv : jsDiv (.fin 6) (.fin 3) = .fin 2 := by norm_num [jsDiv]
  rw [h, hdiv]

/-- Shape of a success reply for request id `id`: every handler reply
payload is an object literal. -/
def ReplyShape (id out : JsValue) : Prop := ∃ fs, out = replyMsg id (.obj fs)

/-- Shape of an error message for request id `id`. -/
def ErrorShape (id out : JsValue) : Prop := ∃ c s d, out = errorMsg id c s d

/-- True when the serialization of `out` carries an `id` member equal to
`rid` — i.e. `out` is the response to the request with id `rid`. -/
def respondsTo (rid out : JsValue) : Bool :=
  jsonMemberPresent out "id" && decide (jsGetField out "id" = rid)

/-- True when the serialization of `out` carries a `result` member. -/
def hasResultMember (out : JsValue) : Bool := jsonMemberPresent out "result"

/-- True when the serialization of `out` carries an `error` member. -/
def hasErrorMember (out : JsValue) : Bool := jsonMemberPresent out "error"

theorem replyShape_facts {rid out : JsValue} (h : ReplyShape rid out)
    (hne : rid ≠ .undef) :
    respondsTo rid out = true ∧ hasResultMember out = true ∧ hasErrorMember out = false := by
  obtain ⟨fs, rfl⟩ := h
  have hu := JsValue.isUndef_eq_false hne
  simp [respondsTo, jsonMemberPresent, jsGetField, replyMsg, hasResultMember,
    hasErrorMember, hu, JsValue.isUndef]

theorem errorShape_facts {rid out : JsValue} (h : ErrorShape rid out)
    (hne : rid ≠ .undef) :
    respondsTo rid out = true ∧ hasResultMember out = false ∧ hasErrorMember out = true := by
  obtain ⟨c, s, d, rfl⟩ := h
  have hu := JsValue.isUndef_eq_false hne
  simp [respondsTo, jsonMemberPresent, jsGetField, errorMsg, hasResultMember,
    hasErrorMember, hu, JsValue.isUndef]

theorem notify_facts (rid : JsValue) (mth : String) (ps : JsValue) :
    respondsTo rid (notifyMsg mth ps) = false
    ∧ jsonMemberPresent (notifyMsg mth ps) "id" = false := by
  simp [respondsTo, jsonMemberPresent, notifyMsg]

theorem shape_id_member_absent {out : JsValue}
    (h : ReplyShape .undef out ∨ ErrorShape .undef out) :
    jsonMemberPresent out "id" = false := by
  rcases h with ⟨fs, rfl⟩ | ⟨c, s, d, rfl⟩ <;>
    simp [jsonMemberPresent, replyMsg, errorMsg, JsValue.isUndef]

theorem handleToolsCall_shape (id params : JsValue) :
    ∃ out, handleToolsCall id params = [out] ∧ (ReplyShape id out ∨ ErrorShape id out) := by
  unfold handleToolsCall
  dsimp only
  repeat' split
  all_goals first
    | exact ⟨_, rfl, Or.inl ⟨_, rfl⟩⟩
    | exact ⟨_, rfl, Or.inr ⟨_, _, _, rfl⟩⟩

theorem handleResourcesRead_shape (env : ServerEnv) (id params : JsValue) :
    (∃ out, handleResourcesRead env id params = .ok [out]
      ∧ (ReplyShape id out ∨ ErrorShape id out))
    ∨ (∃ e, handleResourcesRead env id params = .error e) := by
  unfold handleResourcesRead
  dsimp only
  repeat' split
  all_goals first
    | exact Or.inl ⟨_, rfl, Or.inl ⟨_, rfl⟩⟩
    | exact Or.inl ⟨_, rfl, Or.inr ⟨_, _, _, rfl⟩⟩
    | exact Or.inr ⟨_, rfl⟩

theorem handlePromptsGet_shape (id params : JsValue) :
    (∃ out, handlePromptsGet id params = .ok [out]
      ∧ (ReplyShape id out ∨ ErrorShape id out))
    ∨ (∃ e, handlePromptsGet id params = .error e) := by
  unfold handlePromptsGet
  dsimp only
  repeat' split
  all_goals first
    | exact Or.inl ⟨_, rfl, Or.inl ⟨_, rfl⟩⟩
    | exact Or.inl ⟨_, rfl, Or.inr ⟨_, _, _, rfl⟩⟩
    | exact Or.inr ⟨_, rfl⟩

theorem runMethod_cases (env : ServerEnv) (id method params : JsValue) :
    (∃ out rest, runMethod env id method params = .ok (out :: rest)
      ∧ (ReplyShape id out ∨ ErrorShape id out)
      ∧ ∀ x ∈ rest, ∃ mth ps, x = notifyMsg mth ps)
    ∨ (runMethod env id method params = .ok [] ∧ id = .undef)
    ∨ (∃ e, runMethod env id method params = .error e) := by
  unfold runMethod
  split
  · -- initialize
    refine Or.inl ⟨_, _, rfl, Or.inl ⟨_, rfl⟩, ?_⟩
    intro x hx
    simp only [List.mem_cons, List.not_mem_nil, or_false] at hx
    rcases hx with rfl | rfl | rfl
    · exact ⟨_, _, rfl⟩
    · exact ⟨_, _, rfl⟩
    · exact ⟨_, _, rfl⟩
  split
  · exact Or.inl ⟨_, [], rfl, Or.inl ⟨_, rfl⟩, by simp⟩
  split
  · obtain ⟨out, heq, hshape⟩ := handleToolsCall_shape id params
    exact Or.inl ⟨out, [], by rw [heq], hshape, by simp⟩
  split
  · exact Or.inl ⟨_, [], rfl, Or.inl ⟨_, rfl⟩, by simp⟩
  split
  · rcases handleResourcesRead_shape env id params with ⟨out, heq, hshape⟩ | ⟨e, heq⟩
    · exact Or.inl ⟨out, [], heq, hshape, by simp⟩
    · exact Or.inr (Or.inr ⟨e, heq⟩)
  split
  · exact Or.inl ⟨_, [], rfl, Or.inl ⟨_, rfl⟩, by simp⟩
  split
  · rcases handlePromptsGet_shape id params with ⟨out, heq, hshape⟩ | ⟨e, heq⟩
    · exact Or.inl ⟨out, [], heq, hshape, by simp⟩
    · exact Or.inr (Or.inr ⟨e, heq⟩)
  · -- default case
    split
    · exact Or.inl ⟨_, [], rfl, Or.inr ⟨_, _, _, rfl⟩, by simp⟩
    · next hcond => exact Or.inr (Or.inl ⟨rfl, not_not.mp hcond⟩)

/-- C1: for every parsed request whose `id` is present (not `undefined`),
dispatch emits exactly one message whose serialization carries that `id` —
and that message has exactly one of a `result` member (a reply) or an
`error` member (an error), for every method (known or unknown) and every
handler outcome, including handlers that throw (the `catch` produces the
single `-32603` response). -/
theorem c1_exactly_one_response (env : ServerEnv) (m : JsValue)
    (h : jsGetField m "id" ≠ .undef) :
    (dispatchMsg env m).countP (respondsTo (jsGetField m "id")) = 1
    ∧ ∀ out ∈ dispatchMsg env m, respondsTo (jsGetField m "id") out = true →
        (hasResultMember out = true ∧ hasErrorMember out = false)
        ∨ (hasResultMember out = false ∧ hasErrorMember out = true) := by
  unfold dispatchMsg
  dsimp only
  rcases runMethod_cases env (jsGetField m "id") (jsGetField m "method")
      (jsGetField m "params") with
    ⟨out, rest, heq, hshape, hrest⟩ | ⟨heq, hid⟩ | ⟨e, heq⟩
  · rw [heq]
    dsimp only
    constructor
    · have hout : respondsTo (jsGetField m "id") out = true := by
        rcases hshape with hr | her
        · exact (replyShape_facts hr h).1
        · exact (errorShape_facts her h).1
      have hrest0 : rest.countP (respondsTo (jsGetField m "id")) = 0 := by
        rw [List.countP_eq_zero]
        intro x hx
        obtain ⟨mth, ps, rfl⟩ := hrest x hx
        simp [(notify_facts (jsGetField m "id") mth ps).1]
      rw [List.countP_cons, hrest0, hout]
      rfl
    · intro x hx hresp
      rcases List.mem_cons.mp hx with rfl | hx2
      · rcases hshape with hr | her
        · exact Or.inl ⟨(replyShape_facts hr h).2.1, (replyShape_facts hr h).2.2⟩
        · exact Or.inr ⟨(errorShape_facts her h).2.1, (errorShape_facts her h).2.2⟩
      · obtain ⟨mth, ps, rfl⟩ := hrest x hx2
        rw [(notify_facts (jsGetField m "id") mth ps).1] at hresp
        cases hresp
  · exact absurd hid h
  · rw [heq]
    dsimp only
    rw [if_pos h]
    have hfacts := @errorShape_facts (jsGetField m "id")
      (errorMsg (jsGetField m "id") (-32603) "Internal error" (.obj [("message", .str e)]))
      ⟨-32603, "Internal error", .obj [("message", .str e)], rfl⟩ h
    constructor
    · rw [List.countP_cons, List.countP_nil, hfacts.1]
      rfl
    · intro x hx hresp
      rcases List.mem_cons.mp hx with rfl | hx2
      · exact Or.inr ⟨hfacts.2.1, hfacts.2.2⟩
      · cases hx2

theorem c1_exactly_one_response_witness :
    jsGetField (.obj [("id", .num (.fin 7)), ("method", .str "tools/list")]) "id" ≠ .undef
    ∧ (dispatchMsg demoEnv (.obj [("id", .num (.fin 7)), ("method", .str "tools/list")])).countP
        (respondsTo (jsGetField (.obj [("id", .num (.fin 7)), ("method", .str "tools/list")]) "id"))
        = 1 :=
  ⟨by decide,
   (c1_exactly_one_response demoEnv
     (.obj [("id", .num (.fin 7)), ("method", .str "tools/list")]) (by decide)).1⟩

/-- C3 as stated is false on the code: a notification (no `id`) calling
`tools/call` with non-numeric arguments makes the server emit an error
message. Only the unknown-method default and the `catch` clause test
`id !== undefined`; the handler-level `error(id, ...)` calls run
unconditionally, producing an error object whose `id` member is merely
dropped from the serialization. -/
theorem c3_counterexample :
    dispatchMsg demoEnv (.obj [("method", .str "tools/call"),
      ("params", .obj [("name", .str "calculator_arithmetic"),
        ("arguments", .obj [("op", .str "add"), ("a", .str "x"), ("b", .num (.fin 1))])])])
      = [errorMsg .undef (-32602) "Parâmetros inválidos"
          (.obj [("expected", .str "numbers a,b")])]
    ∧ hasErrorMember (errorMsg .undef (-32602) "Parâmetros inválidos"
        (.obj [("expected", .str "numbers a,b")])) = true :=
  ⟨by decide, by decide⟩

/-- The method names of the routing switch. -/
def knownMethods : List String :=
  ["initialize", "tools/list", "tools/call", "resources/list", "resources/read",
   "prompts/list", "prompts/get"]

/-- C3 amended: for a notification (absent `id`), an unknown method produces
no output at all, and every message the handlers do emit — including the
error messages their validation failures produce — serializes without an
`id` member; but handler-level failures (invalid `tools/call` parameters,
unknown tool, invalid or out-of-root `resources/read` URI, missing prompt
arguments) are not suppressed: they do emit an id-less error message, as
`c3_counterexample` shows. -/
theorem c3_notification_behavior (env : ServerEnv) (m : JsValue)
    (hid : jsGetField m "id" = .undef) :
    (∀ out ∈ dispatchMsg env m, jsonMemberPresent out "id" = false)
    ∧ ((∀ s ∈ knownMethods, jsGetField m "method" ≠ .str s) → dispatchMsg env m = []) := by
  constructor
  · intro out hout
    unfold dispatchMsg at hout
    dsimp only at hout
    rcases runMethod_cases env (jsGetField m "id") (jsGetField m "method")
        (jsGetField m "params") with
      ⟨o, rest, heq, hshape, hrest⟩ | ⟨heq, _⟩ | ⟨e, heq⟩
    · rw [heq] at hout
      dsimp only at hout
      rcases List.mem_cons.mp hout with rfl | h2
      · rw [hid] at hshape
        exact shape_id_member_absent hshape
      · obtain ⟨mth, ps, rfl⟩ := hrest out h2
        exact (notify_facts .undef mth ps).2
    · rw [heq] at hout
      simp at hout
    · rw [heq] at hout
      rw [hid] at hout
      simp at hout
  · intro hunk
    have h1 := hunk "initialize" (by simp [knownMethods])
    have h2 := hunk "tools/list" (by simp [knownMethods])
    have h3 := hunk "tools/call" (by simp [knownMethods])
    have h4 := hunk "resources/list" (by simp [knownMethods])
    have h5 := hunk "resources/read" (by simp [knownMethods])
    have h6 := hunk "prompts/list" (by simp [knownMethods])
    have h7 := hunk "prompts/get" (by simp [knownMethods])
    unfold dispatchMsg runMethod
    dsimp only
    simp [h1, h2, h3, h4, h5, h6, h7, hid]

theorem c3_notification_behavior_witness :
    jsGetField (.obj [("method", .str "no-such/method")]) "id" = .undef
    ∧ dispatchMsg demoEnv (.obj [("method", .str "no-such/method")]) = [] := by
  refine ⟨by decide, (c3_notification_behavior demoEnv _ (by decide)).2 ?_⟩
  intro s hs
  fin_cases hs <;> decide

/-- C8 as stated is false on the code: the `resources/read` invalid-URI
error is emitted with code `-32602` and no `data` member at all — the call
`error(id, -32602, "URI inválida. Use file://")` passes no `data`
argument, so `JSON.stringify` drops the `undefined`-valued member. -/
theorem c8_counterexample :
    handleResourcesRead demoEnv (.num (.fin 1)) (.obj []) =
      .ok [errorMsg (.num (.fin 1)) (-32602) "URI inválida. Use file://" .undef]
    ∧ jsonMemberPresent
        (jsGetField (errorMsg (.num (.fin 1)) (-32602) "URI inválida. Use file://" .undef)
          "error") "data" = false :=
  ⟨rfl, by decide⟩

/-- C8 amended: every `-32602` invalid-params error emitted by `tools/call`
or `prompts/get` carries a `data` member enumerating the expectation, but
the `resources/read` error for a missing or non-`file://` URI — the only
`-32602` that handler emits — carries no `data` member. -/
theorem c8_invalid_params_data :
    (∀ (id params : JsValue), ∀ out ∈ handleToolsCall id params,
      jsGetField (jsGetField out "error") "code" = .num (.fin (-32602)) →
      jsonMemberPresent (jsGetField out "error") "data" = true)
    ∧ (∀ (id params : JsValue) (msgs : List JsValue),
      handlePromptsGet id params = .ok msgs → ∀ out ∈ msgs,
      jsGetField (jsGetField out "error") "code" = .num (.fin (-32602)) →
      jsonMemberPresent (jsGetField out "error") "data" = true)
    ∧ (∀ (env : ServerEnv) (id params : JsValue) (msgs : List JsValue),
      handleResourcesRead env id params = .ok msgs → ∀ out ∈ msgs,
      jsGetField (jsGetField out "error") "code" = .num (.fin (-32602)) →
      jsonMemberPresent (jsGetField out "error") "data" = false) := by
  refine ⟨?_, ?_, ?_⟩
  · intro id params out hout hcode
    unfold handleToolsCall at hout
    dsimp only at hout
    repeat' split at hout
    all_goals simp only [List.mem_singleton] at hout
    all_goals subst hout
    all_goals
      simp [calcReply, replyMsg, errorMsg, jsGetField, jsonMemberPresent,
        JsValue.isUndef] at hcode ⊢
    all_goals norm_num at hcode
  · intro id params msgs hpg out hout hcode
    unfold handlePromptsGet at hpg
    dsimp only at hpg
    repeat' split at hpg
    all_goals try simp only [Except.ok.injEq] at hpg
    all_goals first
      | (exact absurd hpg (by simp))
      | (subst hpg
         simp only [List.mem_singleton] at hout
         subst hout
         simp [replyMsg, errorMsg, jsGetField, jsonMemberPresent,
           JsValue.isUndef] at hcode ⊢
         try norm_num at hcode)
  · intro env id params msgs hrr out hout hcode
    unfold handleResourcesRead at hrr
    dsimp only at hrr
    repeat' split at hrr
    all_goals try simp only [Except.ok.injEq] at hrr
    all_goals first
      | (exact absurd hrr (by simp))
      | (subst hrr
         simp only [List.mem_singleton] at hout
         subst hout
         simp [replyMsg, errorMsg, jsGetField, jsonMemberPresent,
           JsValue.isUndef] at hcode ⊢
         try norm_num at hcode)

theorem c8_invalid_params_data_witness :
    (errorMsg (.num (.fin 1)) (-32602) "Parâmetros inválidos"
        (.obj [("expected", .str "numbers a,b")]))
      ∈ handleToolsCall (.num (.fin 1))
        (.obj [("name", .str "calculator_arithmetic"), ("arguments", .obj [])])
    ∧ jsGetField (jsGetField (errorMsg (.num (.fin 1)) (-32602) "Parâmetros inválidos"
        (.obj [("expected", .str "numbers a,b")])) "error") "code" = .num (.fin (-32602))
    ∧ jsonMemberPresent (jsGetField (errorMsg (.num (.fin 1)) (-32602) "Parâmetros inválidos"
        (.obj [("expected", .str "numbers a,b")])) "error") "data" = true :=
  ⟨by decide, by decide,
   c8_invalid_params_data.1 (.num (.fin 1))
     (.obj [("name", .str "calculator_arithmetic"), ("arguments", .obj [])])
     _ (by decide) (by decide)⟩

theorem escapeJsonPointer_charwise (s : String) :
    escapeJsonPointer s = String.mk (s.toList.flatMap
      (fun c => if c = '~' then ['~', '0'] else if c = '/' then ['~', '1'] else [c])) := by
  unfold escapeJsonPointer
  congr 1
  induction s.toList with
  | nil => rfl
  | cons c cs ih =>
    by_cases h1 : c = '~'
    · subst h1
      simp [replaceCharWith, ih]
    · by_cases h2 : c = '/'
      · subst h2
        simp [replaceCharWith, ih]
      · simp [replaceCharWith, h1, h2, ih]

/-- C6: for a schema with `type: "object"`: a value that is not a non-null,
non-array object yields exactly one `type` error and the check
short-circuits (the result is the pair `(false, [type error])` — no
required or property errors are produced); for an object value, one
`required` error is recorded per required key not present under the `in`
operator's test (own key or inherited `Object.prototype` member name), all
collected in `required` order, followed by the recursive property results;
each declared property present under that same test is recursively
validated at the instance path extended by `/` plus the JSON-Pointer-escaped
key (`~` → `~0`, `/` → `~1`, shown both on the generators and
character-wise) — an own key against its own value, an inherited name
against the inherited member; any other declared property is skipped;
validity is the conjunction of the required check and all sub-results. The
last two conjuncts exhibit the prototype chain concretely: a required key
`toString` is never reported missing against the empty object, and a
declared `toString` property absent from the value is still validated —
against the inherited built-in function, which fails a `number` type
check. -/
theorem c6_object_validation (req : Option (List String))
    (props : List (String × Schema)) (enum? : Option (List JsValue)) (path : String) :
    (∀ v : JsValue, (∀ fields, v ≠ .obj fields) →
      validateAgainstSchema v (.mk (some "object") req props enum?) path =
        (false, [typeErrorRecord path "object"]))
    ∧ (∀ fields,
        validateAgainstSchema (.obj fields) (.mk (some "object") req props enum?) path =
          (((req.getD []).filter (fun k => !(jsInObj fields k))).isEmpty
             && (validateProps fields props path).1,
           ((req.getD []).filter (fun k => !(jsInObj fields k))).map
             (fun k => requiredErrorRecord path k)
             ++ (validateProps fields props path).2))
    ∧ (∀ fields key childSchema restProps,
        validateProps fields ((key, childSchema) :: restProps) path =
          ((if hasOwnKey fields key then
              validateAgainstSchema (jsGetField (.obj fields) key) childSchema
                (path ++ "/" ++ escapeJsonPointer key)
            else if objectPrototypeKeys.contains key then
              validateInherited key childSchema (path ++ "/" ++ escapeJsonPointer key)
            else (true, [])).1 && (validateProps fields restProps path).1,
           (if hasOwnKey fields key then
              validateAgainstSchema (jsGetField (.obj fields) key) childSchema
                (path ++ "/" ++ escapeJsonPointer key)
            else if objectPrototypeKeys.contains key then
              validateInherited key childSchema (path ++ "/" ++ escapeJsonPointer key)
            else (true, [])).2 ++ (validateProps fields restProps path).2))
    ∧ escapeJsonPointer "~" = "~0" ∧ escapeJsonPointer "/" = "~1"
    ∧ (∀ s : String, escapeJsonPointer s = String.mk (s.toList.flatMap
        (fun c => if c = '~' then ['~', '0'] else if c = '/' then ['~', '1'] else [c])))
    ∧ validateAgainstSchema (.obj []) (.mk (some "object") (some ["toString"]) [] none) ""
        = (true, [])
    ∧ validateProps [] [("toString", .mk (some "number") none [] none)] ""
        = (false, [typeErrorRecord "/toString" "number"]) := by
  refine ⟨?_, ?_, ?_, by decide, by decide, escapeJsonPointer_charwise, by decide, by decide⟩
  · intro v hv
    cases v with
    | obj fields => exact absurd rfl (hv fields)
    | undef => rfl
    | null => rfl
    | bool b => rfl
    | num n => rfl
    | str s => rfl
    | arr xs => rfl
  · intro fields
    rfl
  · intro fields key childSchema restProps
    rw [validateProps]

theorem c6_object_validation_witness :
    (∀ fields, (JsValue.str "nope") ≠ .obj fields)
    ∧ validateAgainstSchema (.str "nope")
        (.mk (some "object") (some ["a"]) [("a", .mk (some "string") none [] none)] none) ""
        = (false, [typeErrorRecord "" "object"])
    ∧ validateAgainstSchema (.obj [("b", .num (.fin 1))])
        (.mk (some "object") (some ["a", "b"]) [("b", .mk (some "string") none [] none)] none) ""
        = (false, [requiredErrorRecord "" "a",
                   typeErrorRecord "/b" "string"]) := by
  refine ⟨by intro fields; simp, ?_, ?_⟩
  · exact ((c6_object_validation (some ["a"])
      [("a", .mk (some "string") none [] none)] none "").1 (.str "nope") (by intro fields; simp))
  · have h := ((c6_object_validation (some ["a", "b"])
      [("b", .mk (some "string") none [] none)] none "").2.1 [("b", .num (.fin 1))])
    rw [h]
    decide

/-- C7 as stated is false on the code: for a schema with `type: "object"`
the function returns from the object branch before reaching the `enum`
check, so an object value that equals no `enum` member is accepted with no
`enum` error at all — here schema `type: "object", enum: ["x"]` accepts the
empty object although it is not a member of the list. -/
theorem c7_counterexample :
    validateAgainstSchema (.obj []) (.mk (some "object") none [] (some [.str "x"])) ""
      = (true, [])
    ∧ ([JsValue.str "x"].any (fun x => decide (x = .obj [])) = false) :=
  ⟨rfl, by decide⟩

/-- C7 amended: the `enum` check runs for every schema whose `type` is not
`"object"` (number, string, absent, or unrecognized): when the value equals
no member an `enum` error is appended after any `type` error for the same
value — additive and independent of the type-check outcome — and validity
is forced to `false`; when the value is a member, the result is exactly the
type-check result. For `type: "object"` schemas the `enum` keyword is
ignored entirely: the result does not depend on it. -/
theorem c7_enum_check (type? : Option String) (h : type? ≠ some "object")
    (req : Option (List String)) (props : List (String × Schema))
    (allowed : List JsValue) (v : JsValue) (path : String) :
    (allowed.any (fun x => decide (x = v)) = false →
      validateAgainstSchema v (.mk type? req props (some allowed)) path =
        (false, (typeCheckPart v type? path).2 ++ [enumErrorRecord path allowed]))
    ∧ (allowed.any (fun x => decide (x = v)) = true →
      validateAgainstSchema v (.mk type? req props (some allowed)) path =
        ((typeCheckPart v type? path).1, (typeCheckPart v type? path).2))
    ∧ (∀ enum2, validateAgainstSchema v (.mk (some "object") req props enum2) path
        = validateAgainstSchema v (.mk (some "object") req props none) path) := by
  refine ⟨?_, ?_, ?_⟩
  · intro henum
    rw [validateAgainstSchema.eq_def]
    dsimp only
    rw [if_neg h]
    simp only [henum]
    rfl
  · intro henum
    rw [validateAgainstSchema.eq_def]
    dsimp only
    rw [if_neg h]
    simp only [henum]
    rfl
  · intro enum2
    rw [validateAgainstSchema.eq_def]
    conv_rhs => rw [validateAgainstSchema.eq_def]
    dsimp only
    rw [if_pos rfl, if_pos rfl]

theorem c7_enum_check_witness :
    ((some "number" : Option String) ≠ some "object"
      ∧ [JsValue.str "y"].any (fun x => decide (x = .str "x")) = false)
    ∧ validateAgainstSchema (.str "x") (.mk (some "number") none [] (some [.str "y"])) ""
        = (false, [typeErrorRecord "" "number", enumErrorRecord "" [.str "y"]]) := by
  refine ⟨⟨by decide, by decide⟩, ?_⟩
  have h := (c7_enum_check (some "number") (by decide) none [] [.str "y"] (.str "x") "").1
    (by decide)
  rw [h]
  decide

theorem renderChars_step (vars : JsValue) (c : Char) (cs : List Char) (h : c ≠ '\x7b') :
    renderChars vars (c :: cs) = c :: renderChars vars cs := by
  have hm : matchPlaceholder (c :: cs) = none := by
    rw [matchPlaceholder.eq_def]
    split
    · next rest heq =>
      injection heq with h1 _
      exact absurd h1 h
    · rfl
  rw [renderChars.eq_def]
  dsimp only
  split
  · next key rest heq =>
    rw [hm] at heq
    cases heq
  · rfl

theorem renderChars_placeholder (vars : JsValue) (c1 : Char) (cs1 : List Char)
    (key : String) (rest : List Char)
    (h : matchPlaceholder (c1 :: cs1) = some (key, rest)) :
    renderChars vars (c1 :: cs1) =
      (jsToString (jsCoalesce (jsGetField vars key) (.str ""))).toList
        ++ renderChars vars rest := by
  rw [renderChars.eq_def]
  dsimp only
  split
  · next key2 rest2 heq =>
    rw [h] at heq
    injection heq with hp
    cases hp
    rfl
  · next heq =>
    rw [h] at heq
    cases heq

theorem renderChars_no_brace (vars : JsValue) (cs : List Char) (h : '\x7b' ∉ cs) :
    renderChars vars cs = cs := by
  induction cs with
  | nil =>
    rw [renderChars.eq_def]
  | cons c cs ih =>
    have hc : c ≠ '\x7b' := by
      intro hce
      subst hce
      exact h (List.mem_cons_self _ _)
    rw [renderChars_step vars c cs hc]
    rw [ih (fun hmem => h (List.mem_cons_of_mem c hmem))]

theorem renderTemplate_hello (vars : JsValue) :
    renderTemplate helloTemplate vars =
      "Olá, " ++ jsToString (jsCoalesce (jsGetField vars "name") (.str ""))
        ++ "! Bem-vindo ao Servidor MCP de demonstração." := by
  have h0 : helloTemplate.toList =
      'O' :: 'l' :: 'á' :: ',' :: ' ' :: '\x7b' :: '\x7b' :: 'n' :: 'a' :: 'm' :: 'e' ::
        '\x7d' :: '\x7d' ::
        ("! Bem-vindo ao Servidor MCP de demonstração.").toList := rfl
  have hm : matchPlaceholder
      ('\x7b' :: '\x7b' :: 'n' :: 'a' :: 'm' :: 'e' :: '\x7d' :: '\x7d' ::
        ("! Bem-vindo ao Servidor MCP de demonstração.").toList)
      = some ("name", ("! Bem-vindo ao Servidor MCP de demonstração.").toList) := rfl
  unfold renderTemplate
  rw [h0]
  rw [renderChars_step _ _ _ (by decide)]
  rw [renderChars_step _ _ _ (by decide)]
  rw [renderChars_step _ _ _ (by decide)]
  rw [renderChars_step _ _ _ (by decide)]
  rw [renderChars_step _ _ _ (by decide)]
  rw [renderChars_placeholder vars _ _ "name" _ hm]
  rw [renderChars_no_brace vars _ (by decide)]
  apply String.ext
  simp [String.data_append]

/-- C9: `prompts/get` on the registered prompt: when the schema-required
key `name` is present in the supplied arguments, the reply is a single
system-role message whose content is the template with every `(doubled
brace) key (doubled brace)` placeholder substituted by the string form of
the matching argument — characterized exactly by `renderTemplate`, whose
value on the registered template is the text around the placeholder with
the argument's string form spliced in, so no literal placeholder survives
for the declared variable and an absent optional placeholder renders as the
empty string (`undefined ?? ""`); when the required key is absent, the
reply is the `-32602` invalid-params error naming the `required` list. -/
theorem c9_prompts_get (id : JsValue) (fs : List (String × JsValue)) :
    (hasOwnKey fs "name" = true →
      handlePromptsGet id (.obj [("name", .str "hello-template"), ("arguments", .obj fs)])
        = .ok [replyMsg id (.obj [("prompt", .obj
            [("name", .str "hello-template"),
             ("messages", .arr [.obj [("role", .str "system"),
               ("content", .str (renderTemplate helloTemplate (.obj fs)))]])])])])
    ∧ (∀ vars : JsValue,
        renderTemplate helloTemplate vars =
          "Olá, " ++ jsToString (jsCoalesce (jsGetField vars "name") (.str ""))
            ++ "! Bem-vindo ao Servidor MCP de demonstração.")
    ∧ (hasOwnKey fs "name" = false →
      handlePromptsGet id (.obj [("name", .str "hello-template"), ("arguments", .obj fs)])
        = .ok [errorMsg id (-32602) "Argumentos ausentes para o prompt"
            (.obj [("required", .arr [.str "name"])])]) := by
  refine ⟨?_, renderTemplate_hello, ?_⟩
  · intro h
    simp [handlePromptsGet, promptsTable, jsGetField, jsCoalesce, List.find?, h, helloTemplate]
  · intro h
    simp [handlePromptsGet, promptsTable, jsGetField, jsCoalesce, List.find?, h]

theorem c9_prompts_get_witness :
    (hasOwnKey [("name", JsValue.str "Luis")] "name" = true
      ∧ handlePromptsGet (.num (.fin 9))
          (.obj [("name", .str "hello-template"),
                 ("arguments", .obj [("name", .str "Luis")])])
        = .ok [replyMsg (.num (.fin 9)) (.obj [("prompt", .obj
            [("name", .str "hello-template"),
             ("messages", .arr [.obj [("role", .str "system"),
               ("content", .str "Olá, Luis! Bem-vindo ao Servidor MCP de demonstração.")]])])])]) := by
  constructor
  · decide
  · have h := (c9_prompts_get (.num (.fin 9)) [("name", .str "Luis")]).1 (by decide)
    rw [h]
    have hr := (c9_prompts_get (.num (.fin 9)) [("name", .str "Luis")]).2.1
      (.obj [("name", .str "Luis")])
    rw [hr]
    rfl
